import Mathlib

/-!
Verification development for the settlement-solving pipeline:
shallow embedding of `src/solver/src/http_solver.rs`,
`src/crates/solver/src/settlement_access_list.rs` and the settlement
execution boundary exercised by `src/crates/driver/src/tests/cases/settle.rs`,
together with theorems settling the specified properties.

Machine integers (`H160` addresses, `u128`/`u64` amounts) are modelled as
`Nat`; an `H160` value is a natural number below `2 ^ 160 = 16 ^ 40`.
Hash maps are modelled as association lists (key membership and lookup are
what the claims speak about; iteration order is irrelevant to them).
The opaque `settlement_handling` trait objects are modelled as `Nat`
identifiers (their only role in the verified properties is value identity).
-/

/-- An Ethereum address (`primitive_types::H160`), as a natural number.
Where hex formatting matters we require the value to be below `16 ^ 40`. -/
abbrev H160 := Nat

/-- `model::order::OrderKind`. -/
inductive OrderKind where
  | sell : OrderKind
  | buy : OrderKind
deriving DecidableEq, Repr

/-- `liquidity::LimitOrder` (the `settlement_handling: Arc<dyn ...>` field is
modelled as an opaque `Nat` identifier). -/
structure LimitOrder where
  sell_token : H160
  buy_token : H160
  sell_amount : Nat
  buy_amount : Nat
  kind : OrderKind
  partially_fillable : Bool
  settlement_handling : Nat
deriving DecidableEq, Repr

/-- `model::TokenPair`: the ordered pair of tokens of an AMM pool, as read by
`tokens.get()` in the source (`.0` and `.1`). -/
structure TokenPair where
  fst : H160
  snd : H160
deriving DecidableEq, Repr

/-- `liquidity::AmmOrder` (fee is the exact rational `num::Rational`;
`settlement_handling` modelled as an opaque `Nat` identifier). -/
structure AmmOrder where
  tokens : TokenPair
  reserves : Nat × Nat
  fee : Rat
  settlement_handling : Nat
deriving DecidableEq, Repr

/-- `liquidity::Liquidity`: tagged union of limit orders and AMM pools. -/
inductive Liquidity where
  | limit : LimitOrder → Liquidity
  | amm : AmmOrder → Liquidity
deriving DecidableEq, Repr

/-- Fixed-width lowercase hex rendering: `hexFixed k n` is the `k`
lowest hex digits of `n`, most significant first.  `format!("{:x}", h160)`
on a `primitive_types::H160` prints all 40 hex digits. -/
def hexFixed : Nat → Nat → List Char
  | 0, _ => []
  | k + 1, n => hexFixed k (n / 16) ++ [Nat.digitChar (n % 16)]

/-- `HttpSolver::token_to_string`: `format!("t{:x}", token)` — the letter `t`
followed by the 40 lowercase hex digits of the address. -/
def token_to_string (token : H160) : String :=
  "t" ++ ⟨hexFixed 40 token⟩

/-- The tokens mentioned by one liquidity item, in the order the source
iterates them (`sell_token` then `buy_token`; pool side `.0` then `.1`). -/
def liquidityTokens : Liquidity → List H160
  | .limit order => [order.sell_token, order.buy_token]
  | .amm amm => [amm.tokens.fst, amm.tokens.snd]

/-- `HttpSolver::map_tokens_for_solver`: collect all tokens of the liquidity
into a de-duplicated set and key each by its string identifier. -/
def map_tokens_for_solver (orders : List Liquidity) : List (String × H160) :=
  ((orders.flatMap liquidityTokens).dedup).map (fun token => (token_to_string token, token))

/-- `split_liquidity`: partition the liquidity into limit orders and AMM
orders, preserving order. -/
def split_liquidity (liquidity : List Liquidity) : List LimitOrder × List AmmOrder :=
  (liquidity.filterMap (fun l => match l with | .limit o => some o | .amm _ => none),
   liquidity.filterMap (fun l => match l with | .limit _ => none | .amm a => some a))

/-- The set (as a list; only membership matters, mirroring the `HashSet`) of
tokens that share a pool with the native token, plus the native token itself
— the body of `remove_orders_without_native_connection`'s first statement. -/
def tokens_with_native_pools (amms : List AmmOrder) (native_token : H160) : List H160 :=
  (amms.filterMap (fun amm =>
    if amm.tokens.fst = native_token then some amm.tokens.snd
    else if amm.tokens.snd = native_token then some amm.tokens.fst
    else none)) ++ [native_token]

/-- `remove_orders_without_native_connection`: retain an order iff its buy
token or sell token is in `tokens_with_native_pools`. -/
def remove_orders_without_native_connection
    (orders : List LimitOrder) (amms : List AmmOrder) (native_token : H160) :
    List LimitOrder :=
  orders.filter (fun order =>
    [order.buy_token, order.sell_token].any
      (fun token => (tokens_with_native_pools amms native_token).contains token))

/-! ### Hex digit lemmas -/

theorem digitChar_inj_lt16 (a b : Nat) (ha : a < 16) (hb : b < 16)
    (h : Nat.digitChar a = Nat.digitChar b) : a = b := by
  have key : ∀ (x y : Fin 16), Nat.digitChar x.val = Nat.digitChar y.val → x = y := by decide
  have := key ⟨a, ha⟩ ⟨b, hb⟩ h
  exact congrArg Fin.val this

theorem hexFixed_length (k n : Nat) : (hexFixed k n).length = k := by
  induction k generalizing n with
  | zero => rfl
  | succ k ih => simp [hexFixed, ih]

theorem hexFixed_inj (k : Nat) : ∀ m n : Nat, m < 16 ^ k → n < 16 ^ k →
    hexFixed k m = hexFixed k n → m = n := by
  induction k with
  | zero =>
    intro m n hm hn _
    simp only [pow_zero, Nat.lt_one_iff] at hm hn
    omega
  | succ k ih =>
    intro m n hm hn h
    simp only [hexFixed] at h
    have hlen : (hexFixed k (m / 16)).length = (hexFixed k (n / 16)).length := by
      rw [hexFixed_length, hexFixed_length]
    obtain ⟨h1, h2⟩ := List.append_inj h hlen
    have hm' : m / 16 < 16 ^ k := by
      rw [pow_succ, mul_comm] at hm
      exact Nat.div_lt_of_lt_mul hm
    have hn' : n / 16 < 16 ^ k := by
      rw [pow_succ, mul_comm] at hn
      exact Nat.div_lt_of_lt_mul hn
    have hdiv : m / 16 = n / 16 := ih _ _ hm' hn' h1
    have hmod : m % 16 = n % 16 := by
      apply digitChar_inj_lt16 _ _ (Nat.mod_lt _ (by norm_num)) (Nat.mod_lt _ (by norm_num))
      simpa using h2
    omega

theorem token_to_string_data (a : H160) :
    (token_to_string a).data = 't' :: hexFixed 40 a := by
  show ("t" ++ (⟨hexFixed 40 a⟩ : String)).data = _
  simp [String.data_append]

theorem token_to_string_inj (a b : H160) (ha : a < 16 ^ 40) (hb : b < 16 ^ 40)
    (h : token_to_string a = token_to_string b) : a = b := by
  apply hexFixed_inj 40 a b ha hb
  have hd : (token_to_string a).data = (token_to_string b).data := by rw [h]
  rw [token_to_string_data, token_to_string_data] at hd
  exact List.cons_injective.eq_iff.mp hd

theorem token_to_string_head (a : H160) : (token_to_string a).data.head? = some 't' := by
  rw [token_to_string_data]
  rfl

theorem token_to_string_map_nodup (addrs : List H160) (hnd : addrs.Nodup)
    (hb : ∀ a ∈ addrs, a < 16 ^ 40) : (addrs.map token_to_string).Nodup :=
  hnd.map_on (fun a ha b hb' h => token_to_string_inj a b (hb a ha) (hb b hb') h)

/-- The one-hop-reachable set, worded as the spec words it: a token is
reachable if it equals the native token or is the opposite side of some AMM
pool whose other side is the native token.  (Spec-side definition, compared
against the source-side `tokens_with_native_pools` filter.) -/
def specOneHopReachable (amms : List AmmOrder) (native_token t : H160) : Prop :=
  t = native_token ∨
    ∃ amm ∈ amms,
      (amm.tokens.fst = native_token ∧ amm.tokens.snd = t) ∨
      (amm.tokens.snd = native_token ∧ amm.tokens.fst = t)

instance (amms : List AmmOrder) (native_token t : H160) :
    Decidable (specOneHopReachable amms native_token t) := by
  unfold specOneHopReachable
  infer_instance

theorem mem_tokens_with_native_pools (amms : List AmmOrder) (native_token t : H160) :
    t ∈ tokens_with_native_pools amms native_token ↔
      specOneHopReachable amms native_token t := by
  simp only [tokens_with_native_pools, List.mem_append, List.mem_filterMap,
    List.mem_singleton, specOneHopReachable]
  constructor
  · rintro (⟨amm, hamm, hsome⟩ | rfl)
    · right
      refine ⟨amm, hamm, ?_⟩
      by_cases h1 : amm.tokens.fst = native_token
      · simp only [h1, if_true, Option.some_inj] at hsome
        exact Or.inl ⟨h1, hsome⟩
      · by_cases h2 : amm.tokens.snd = native_token
        · simp only [h1, if_false, h2, if_true, Option.some_inj] at hsome
          exact Or.inr ⟨h2, hsome⟩
        · simp [h1, h2] at hsome
    · exact Or.inl rfl
  · rintro (rfl | ⟨amm, hamm, ⟨h1, rfl⟩ | ⟨h2, rfl⟩⟩)
    · exact Or.inr rfl
    · exact Or.inl ⟨amm, hamm, by simp [h1]⟩
    · left
      refine ⟨amm, hamm, ?_⟩
      by_cases h1 : amm.tokens.fst = native_token
      · simp only [h1, if_true, Option.some_inj]
        exact h2
      · simp [h1, h2]

theorem mem_remove_orders_iff (orders : List LimitOrder) (amms : List AmmOrder)
    (native_token : H160) (o : LimitOrder) :
    o ∈ remove_orders_without_native_connection orders amms native_token ↔
      o ∈ orders ∧
        (specOneHopReachable amms native_token o.buy_token ∨
         specOneHopReachable amms native_token o.sell_token) := by
  simp only [remove_orders_without_native_connection, List.mem_filter, List.any_eq_true,
    List.mem_cons, List.mem_singleton, List.not_mem_nil]
  constructor
  · rintro ⟨ho, token, htok, hc⟩
    refine ⟨ho, ?_⟩
    have hmem : token ∈ tokens_with_native_pools amms native_token := List.elem_iff.mp hc
    rcases htok with rfl | rfl | h
    · exact Or.inl ((mem_tokens_with_native_pools _ _ _).mp hmem)
    · exact Or.inr ((mem_tokens_with_native_pools _ _ _).mp hmem)
    · cases h
  · rintro ⟨ho, hbuy | hsell⟩
    · exact ⟨ho, o.buy_token, Or.inl rfl,
        List.elem_iff.mpr ((mem_tokens_with_native_pools _ _ _).mpr hbuy)⟩
    · exact ⟨ho, o.sell_token, Or.inr (Or.inl rfl),
        List.elem_iff.mpr ((mem_tokens_with_native_pools _ _ _).mpr hsell)⟩

/-- The concrete pruning scenario of the spec: native token `N = 0`, tokens
`A = 1`, `B = 2`, `C = 3`, a single pool `(N, A)`, and six orders
`(N→A), (N→B), (A→B), (B→A), (B→C), (C→B)` (an order `X→Y` sells `X` and
buys `Y`; amounts and flags are immaterial to pruning). -/
def examplePruneOrder (sell buy : H160) : LimitOrder :=
  { sell_token := sell, buy_token := buy, sell_amount := 0, buy_amount := 0,
    kind := OrderKind.sell, partially_fillable := false, settlement_handling := 0 }

def examplePruneOrders : List LimitOrder :=
  [examplePruneOrder 0 1, examplePruneOrder 0 2, examplePruneOrder 1 2,
   examplePruneOrder 2 1, examplePruneOrder 2 3, examplePruneOrder 3 2]

def examplePruneAmms : List AmmOrder :=
  [{ tokens := ⟨0, 1⟩, reserves := (0, 0), fee := 0, settlement_handling := 0 }]

/-! ### Decimal index keys

`map_orders_for_solver` and `map_amms_for_solver` key each entry by
`index.to_string()` — the decimal numeral of the index.  `natKey` renders that
numeral (via `Nat.digits`, which makes injectivity provable); e.g.
`natKey 12 = "12"`. -/

def natKey (n : Nat) : String :=
  ⟨if n = 0 then ['0'] else ((Nat.digits 10 n).map Nat.digitChar).reverse⟩

theorem map_digitChar_inj : ∀ (l1 l2 : List Nat), (∀ x ∈ l1, x < 16) → (∀ x ∈ l2, x < 16) →
    l1.map Nat.digitChar = l2.map Nat.digitChar → l1 = l2 := by
  intro l1
  induction l1 with
  | nil =>
    intro l2 _ _ h
    cases l2 with
    | nil => rfl
    | cons b t => simp at h
  | cons a t1 ih =>
    intro l2 h1 h2 h
    cases l2 with
    | nil => simp at h
    | cons b t2 =>
      simp only [List.map_cons, List.cons.injEq] at h
      have ha : a = b := digitChar_inj_lt16 a b
        (h1 a (List.mem_cons_self a t1)) (h2 b (List.mem_cons_self b t2)) h.1
      have ht : t1 = t2 := ih t2 (fun x hx => h1 x (List.mem_cons_of_mem a hx))
        (fun x hx => h2 x (List.mem_cons_of_mem b hx)) h.2
      rw [ha, ht]

theorem digits_map_digitChar_eq_zero (n : Nat)
    (h : (Nat.digits 10 n).map Nat.digitChar = ['0']) : n = 0 := by
  cases hl : Nat.digits 10 n with
  | nil =>
    rw [hl] at h
    simp at h
  | cons d t =>
    rw [hl] at h
    simp only [List.map_cons, List.cons.injEq, List.map_eq_nil_iff] at h
    obtain ⟨hdc, ht⟩ := h
    have hd10 : d < 10 := Nat.digits_lt_base' (by rw [hl]; exact List.mem_cons_self d t)
    have hd0 : d = 0 := digitChar_inj_lt16 d 0 (by omega) (by norm_num) hdc
    have hofd := Nat.ofDigits_digits 10 n
    rw [hl, ht, hd0] at hofd
    simpa [Nat.ofDigits] using hofd.symm

theorem natKey_inj (m n : Nat) (h : natKey m = natKey n) : m = n := by
  have hd : (natKey m).data = (natKey n).data := by rw [h]
  simp only [natKey] at hd
  by_cases hm : m = 0 <;> by_cases hn : n = 0
  · rw [hm, hn]
  · exfalso
    simp only [hm, if_true, hn, if_false] at hd
    have : (Nat.digits 10 n).map Nat.digitChar = ['0'] := by
      have := congrArg List.reverse hd
      simpa using this.symm
    exact hn (digits_map_digitChar_eq_zero n this)
  · exfalso
    simp only [hm, if_false, hn, if_true] at hd
    have : (Nat.digits 10 m).map Nat.digitChar = ['0'] := by
      have := congrArg List.reverse hd
      simpa using this
    exact hm (digits_map_digitChar_eq_zero m this)
  · simp only [hm, if_false, hn, if_false] at hd
    have hrev := congrArg List.reverse hd
    simp only [List.reverse_reverse] at hrev
    have hmap : (Nat.digits 10 m).map Nat.digitChar = (Nat.digits 10 n).map Nat.digitChar := hrev
    have hdig : Nat.digits 10 m = Nat.digits 10 n :=
      map_digitChar_inj _ _
        (fun x hx => lt_trans (Nat.digits_lt_base' hx) (by norm_num))
        (fun x hx => lt_trans (Nat.digits_lt_base' hx) (by norm_num)) hmap
    have h1 := Nat.ofDigits_digits 10 m
    have h2 := Nat.ofDigits_digits 10 n
    rw [hdig] at h1
    rw [← h1, h2]

/-! ### Auction model and settlement context (`http_solver/model.rs` shapes as
used by `prepare_model`; field layout per the wire format of the spec §6) -/

/-- `TokenInfoModel`. -/
structure TokenInfoModel where
  decimals : Nat
deriving DecidableEq, Repr

/-- `OrderModel`. -/
structure OrderModel where
  sell_token : String
  buy_token : String
  sell_amount : Nat
  buy_amount : Nat
  allow_partial_fill : Bool
  is_sell_order : Bool
deriving DecidableEq, Repr

/-- `UniswapModel`.  The source narrows the exact rational fee to `f64`
(`*fee.numer() as f64 / *fee.denom() as f64`); we keep the exact ratio, since
no verified claim depends on float rounding. -/
structure UniswapModel where
  token1 : String
  token2 : String
  balance1 : Nat
  balance2 : Nat
  fee : Rat
  mandatory : Bool
deriving DecidableEq, Repr

/-- `BatchAuctionModel` (the hash maps as association lists). -/
structure BatchAuctionModel where
  tokens : List (String × TokenInfoModel)
  orders : List (String × OrderModel)
  uniswaps : List (String × UniswapModel)
  default_fee : Rat
deriving DecidableEq, Repr

/-- `settlement::SettlementContext`: the reverse mapping retained alongside
the model. -/
structure SettlementContext where
  tokens : List (String × H160)
  limit_orders : List (String × LimitOrder)
  amm_orders : List (String × AmmOrder)
deriving DecidableEq, Repr

/-- `HttpSolver::token_models`: every collected token gets decimals 18. -/
def token_models (tokens : List (String × H160)) : List (String × TokenInfoModel) :=
  tokens.map (fun p => (p.1, { decimals := 18 }))

/-- `HttpSolver::map_orders_for_solver`: key each order by the decimal string
of its position. -/
def map_orders_for_solver (orders : List LimitOrder) : List (String × LimitOrder) :=
  orders.enum.map (fun p => (natKey p.1, p.2))

/-- The `OrderModel` built from one `LimitOrder` in `order_models`. -/
def order_model (order : LimitOrder) : OrderModel :=
  { sell_token := token_to_string order.sell_token,
    buy_token := token_to_string order.buy_token,
    sell_amount := order.sell_amount,
    buy_amount := order.buy_amount,
    allow_partial_fill := order.partially_fillable,
    is_sell_order := order.kind = OrderKind.sell }

/-- `HttpSolver::order_models`. -/
def order_models (orders : List (String × LimitOrder)) : List (String × OrderModel) :=
  orders.map (fun p => (p.1, order_model p.2))

/-- `HttpSolver::map_amms_for_solver`. -/
def map_amms_for_solver (orders : List AmmOrder) : List (String × AmmOrder) :=
  orders.enum.map (fun p => (natKey p.1, p.2))

/-- The `UniswapModel` built from one `AmmOrder` in `amm_models`. -/
def uniswap_model (amm : AmmOrder) : UniswapModel :=
  { token1 := token_to_string amm.tokens.fst,
    token2 := token_to_string amm.tokens.snd,
    balance1 := amm.reserves.1,
    balance2 := amm.reserves.2,
    fee := amm.fee,
    mandatory := false }

/-- `HttpSolver::amm_models`. -/
def amm_models (amms : List (String × AmmOrder)) : List (String × UniswapModel) :=
  amms.map (fun p => (p.1, uniswap_model p.2))

/-- `HttpSolver::prepare_model`: collect the token map from the *full*
liquidity, split, prune the limit orders against the native token, index
orders and AMMs, and return the model with its reverse-mapping context. -/
def prepare_model (native_token : H160) (liquidity : List Liquidity) :
    BatchAuctionModel × SettlementContext :=
  let tokens := map_tokens_for_solver liquidity
  let split := split_liquidity liquidity
  let pruned := remove_orders_without_native_connection split.1 split.2 native_token
  let limit_orders := map_orders_for_solver pruned
  let amm_orders := map_amms_for_solver split.2
  ({ tokens := token_models tokens,
     orders := order_models limit_orders,
     uniswaps := amm_models amm_orders,
     default_fee := 0 },
   { tokens := tokens, limit_orders := limit_orders, amm_orders := amm_orders })

/-! ### Association list resolution lemmas -/

theorem lookup_eq_some_of_mem_nodup {α β : Type} [BEq α] [LawfulBEq α]
    (l : List (α × β)) (hnd : (l.map Prod.fst).Nodup) (k : α) (v : β)
    (hm : (k, v) ∈ l) : l.lookup k = some v := by
  induction l with
  | nil => cases hm
  | cons p t ih =>
    obtain ⟨k', v'⟩ := p
    simp only [List.map_cons, List.nodup_cons] at hnd
    rcases List.mem_cons.mp hm with heq | htail
    · obtain ⟨rfl, rfl⟩ := Prod.mk.injEq .. ▸ heq
      simp [List.lookup]
    · have hne : k ≠ k' := by
        rintro rfl
        exact hnd.1 (List.mem_map.mpr ⟨(k, v), htail, rfl⟩)
      have : (k == k') = false := beq_false_of_ne hne
      simp [List.lookup, this, ih hnd.2 htail]

theorem map_orders_for_solver_keys_nodup (orders : List LimitOrder) :
    ((map_orders_for_solver orders).map Prod.fst).Nodup := by
  have : (map_orders_for_solver orders).map Prod.fst =
      (List.range orders.length).map natKey := by
    simp only [map_orders_for_solver, List.map_map]
    rw [show (Prod.fst ∘ fun p : Nat × LimitOrder => (natKey p.1, p.2)) =
        (natKey ∘ Prod.fst) from rfl, ← List.map_map, List.enum_map_fst]
  rw [this]
  exact (List.nodup_range _).map_on (fun a _ b _ h => natKey_inj a b h)

theorem map_amms_for_solver_keys_nodup (amms : List AmmOrder) :
    ((map_amms_for_solver amms).map Prod.fst).Nodup := by
  have : (map_amms_for_solver amms).map Prod.fst =
      (List.range amms.length).map natKey := by
    simp only [map_amms_for_solver, List.map_map]
    rw [show (Prod.fst ∘ fun p : Nat × AmmOrder => (natKey p.1, p.2)) =
        (natKey ∘ Prod.fst) from rfl, ← List.map_map, List.enum_map_fst]
  rw [this]
  exact (List.nodup_range _).map_on (fun a _ b _ h => natKey_inj a b h)

theorem map_tokens_for_solver_keys_nodup (liquidity : List Liquidity)
    (hb : ∀ t ∈ liquidity.flatMap liquidityTokens, t < 16 ^ 40) :
    ((map_tokens_for_solver liquidity).map Prod.fst).Nodup := by
  have : (map_tokens_for_solver liquidity).map Prod.fst =
      ((liquidity.flatMap liquidityTokens).dedup).map token_to_string := by
    simp [map_tokens_for_solver, List.map_map, Function.comp]
  rw [this]
  exact token_to_string_map_nodup _ (List.nodup_dedup _)
    (fun a ha => hb a (List.mem_dedup.mp ha))

theorem mem_map_tokens_for_solver (liquidity : List Liquidity) (t : H160)
    (ht : t ∈ liquidity.flatMap liquidityTokens) :
    (token_to_string t, t) ∈ map_tokens_for_solver liquidity :=
  List.mem_map.mpr ⟨t, List.mem_dedup.mpr ht, rfl⟩

theorem sell_token_mem_flatMap (liquidity : List Liquidity) (o : LimitOrder)
    (ho : Liquidity.limit o ∈ liquidity) :
    o.sell_token ∈ liquidity.flatMap liquidityTokens :=
  List.mem_flatMap.mpr ⟨Liquidity.limit o, ho, by simp [liquidityTokens]⟩

theorem buy_token_mem_flatMap (liquidity : List Liquidity) (o : LimitOrder)
    (ho : Liquidity.limit o ∈ liquidity) :
    o.buy_token ∈ liquidity.flatMap liquidityTokens :=
  List.mem_flatMap.mpr ⟨Liquidity.limit o, ho, by simp [liquidityTokens]⟩

theorem amm_tokens_mem_flatMap (liquidity : List Liquidity) (a : AmmOrder)
    (ha : Liquidity.amm a ∈ liquidity) :
    a.tokens.fst ∈ liquidity.flatMap liquidityTokens ∧
    a.tokens.snd ∈ liquidity.flatMap liquidityTokens :=
  ⟨List.mem_flatMap.mpr ⟨Liquidity.amm a, ha, by simp [liquidityTokens]⟩,
   List.mem_flatMap.mpr ⟨Liquidity.amm a, ha, by simp [liquidityTokens]⟩⟩

theorem mem_split_limit (liquidity : List Liquidity) (o : LimitOrder)
    (ho : o ∈ (split_liquidity liquidity).1) : Liquidity.limit o ∈ liquidity := by
  simp only [split_liquidity, List.mem_filterMap] at ho
  obtain ⟨l, hl, hsome⟩ := ho
  cases l with
  | limit o' =>
    simp only [Option.some_inj] at hsome
    rw [hsome] at hl
    exact hl
  | amm a => simp at hsome

theorem mem_split_amm (liquidity : List Liquidity) (a : AmmOrder)
    (ha : a ∈ (split_liquidity liquidity).2) : Liquidity.amm a ∈ liquidity := by
  simp only [split_liquidity, List.mem_filterMap] at ha
  obtain ⟨l, hl, hsome⟩ := ha
  cases l with
  | limit o => simp at hsome
  | amm a' =>
    simp only [Option.some_inj] at hsome
    rw [hsome] at hl
    exact hl

theorem mem_map_orders_for_solver (orders : List LimitOrder) (p : String × LimitOrder)
    (hp : p ∈ map_orders_for_solver orders) : p.2 ∈ orders := by
  simp only [map_orders_for_solver, List.mem_map] at hp
  obtain ⟨⟨i, o⟩, hio, heq⟩ := hp
  rw [List.mem_enum_iff_getElem?] at hio
  have : p.2 = o := by rw [← heq]
  rw [this]
  exact List.getElem?_mem hio

theorem mem_map_amms_for_solver (amms : List AmmOrder) (p : String × AmmOrder)
    (hp : p ∈ map_amms_for_solver amms) : p.2 ∈ amms := by
  simp only [map_amms_for_solver, List.mem_map] at hp
  obtain ⟨⟨i, a⟩, hia, heq⟩ := hp
  rw [List.mem_enum_iff_getElem?] at hia
  have : p.2 = a := by rw [← heq]
  rw [this]
  exact List.getElem?_mem hia

/-! ### Claim C1: connectivity pruning -/

/-- C1: after `remove_orders_without_native_connection`, a limit order is
retained iff its buy token or its sell token is one-hop reachable (equals the
native token, or is the opposite side of a pool whose other side is the
native token); in the concrete scenario with native `N = 0`, pool `(N, A)`
and orders `(N→A), (N→B), (A→B), (B→A), (B→C), (C→B)`, exactly the first
four orders remain. -/
theorem claim_C1_pruning_one_hop :
    (∀ (orders : List LimitOrder) (amms : List AmmOrder) (native_token : H160)
        (o : LimitOrder),
      o ∈ remove_orders_without_native_connection orders amms native_token ↔
        o ∈ orders ∧
          (specOneHopReachable amms native_token o.buy_token ∨
           specOneHopReachable amms native_token o.sell_token)) ∧
    remove_orders_without_native_connection examplePruneOrders examplePruneAmms 0 =
      [examplePruneOrder 0 1, examplePruneOrder 0 2, examplePruneOrder 1 2,
       examplePruneOrder 2 1] ∧
    (remove_orders_without_native_connection examplePruneOrders examplePruneAmms 0).length
      = 4 :=
  ⟨mem_remove_orders_iff, by decide, by decide⟩

/-! ### Claim C6: token identifier uniqueness -/

/-- C6: over the de-duplicated token set collected by
`map_tokens_for_solver`, `token_to_string` yields pairwise distinct
identifiers — as many as there are distinct addresses — and every identifier
is the letter `t` (an alphabetic character) followed by the address hex. -/
theorem claim_C6_token_identifier_uniqueness (liquidity : List Liquidity)
    (hb : ∀ t ∈ liquidity.flatMap liquidityTokens, t < 16 ^ 40) :
    ((map_tokens_for_solver liquidity).map Prod.fst).Nodup ∧
    (map_tokens_for_solver liquidity).length =
      ((liquidity.flatMap liquidityTokens).dedup).length ∧
    ∀ p ∈ map_tokens_for_solver liquidity,
      p.1 = token_to_string p.2 ∧ p.1.data.head? = some 't' ∧
        Char.isAlpha 't' = true := by
  refine ⟨map_tokens_for_solver_keys_nodup liquidity hb, ?_, ?_⟩
  · simp [map_tokens_for_solver]
  · intro p hp
    simp only [map_tokens_for_solver, List.mem_map] at hp
    obtain ⟨t, _, rfl⟩ := hp
    exact ⟨rfl, token_to_string_head t, rfl⟩

/-- Concrete liquidity used to instantiate the universally quantified
claims: one limit order `A → N` and one pool `(N, A)`. -/
def exampleLiquidity : List Liquidity :=
  [Liquidity.limit (examplePruneOrder 1 0),
   Liquidity.amm { tokens := ⟨0, 1⟩, reserves := (100, 100), fee := 0,
                   settlement_handling := 0 }]

theorem claim_C6_witness :
    ((map_tokens_for_solver exampleLiquidity).map Prod.fst).Nodup ∧
    (map_tokens_for_solver exampleLiquidity).length =
      ((exampleLiquidity.flatMap liquidityTokens).dedup).length ∧
    ∀ p ∈ map_tokens_for_solver exampleLiquidity,
      p.1 = token_to_string p.2 ∧ p.1.data.head? = some 't' ∧
        Char.isAlpha 't' = true :=
  claim_C6_token_identifier_uniqueness exampleLiquidity (by decide)

/-! ### Claim C5: model/context round trip -/

/-- C5: every order index and pool index present in a model built by
`prepare_model` resolves through the paired `SettlementContext` to exactly
the original `LimitOrder`/`AmmOrder` the model entry was derived from, and
every token identifier used by a model entry resolves through the context's
token map to its original address. -/
theorem claim_C5_model_context_roundtrip (native_token : H160)
    (liquidity : List Liquidity)
    (hb : ∀ t ∈ liquidity.flatMap liquidityTokens, t < 16 ^ 40) :
    (∀ p ∈ (prepare_model native_token liquidity).1.orders,
      ∃ o : LimitOrder,
        ((prepare_model native_token liquidity).2.limit_orders.lookup p.1 = some o) ∧
        p.2 = order_model o ∧
        ((prepare_model native_token liquidity).2.tokens.lookup p.2.sell_token =
          some o.sell_token) ∧
        ((prepare_model native_token liquidity).2.tokens.lookup p.2.buy_token =
          some o.buy_token)) ∧
    (∀ p ∈ (prepare_model native_token liquidity).1.uniswaps,
      ∃ a : AmmOrder,
        ((prepare_model native_token liquidity).2.amm_orders.lookup p.1 = some a) ∧
        p.2 = uniswap_model a ∧
        ((prepare_model native_token liquidity).2.tokens.lookup p.2.token1 =
          some a.tokens.fst) ∧
        ((prepare_model native_token liquidity).2.tokens.lookup p.2.token2 =
          some a.tokens.snd)) := by
  have htokens : ∀ t ∈ liquidity.flatMap liquidityTokens,
      (map_tokens_for_solver liquidity).lookup (token_to_string t) = some t :=
    fun t ht => lookup_eq_some_of_mem_nodup _
      (map_tokens_for_solver_keys_nodup liquidity hb) _ _
      (mem_map_tokens_for_solver liquidity t ht)
  constructor
  · intro p hp
    simp only [prepare_model, order_models, List.mem_map] at hp
    obtain ⟨q, hq, rfl⟩ := hp
    refine ⟨q.2, ?_, rfl, ?_, ?_⟩
    · simp only [prepare_model]
      exact lookup_eq_some_of_mem_nodup _ (map_orders_for_solver_keys_nodup _) _ _
        (by rw [Prod.mk.eta]; exact hq)
    · have ho : Liquidity.limit q.2 ∈ liquidity :=
        mem_split_limit liquidity q.2
          (List.mem_of_mem_filter (mem_map_orders_for_solver _ _ hq))
      simp only [prepare_model]
      exact htokens _ (sell_token_mem_flatMap liquidity q.2 ho)
    · have ho : Liquidity.limit q.2 ∈ liquidity :=
        mem_split_limit liquidity q.2
          (List.mem_of_mem_filter (mem_map_orders_for_solver _ _ hq))
      simp only [prepare_model]
      exact htokens _ (buy_token_mem_flatMap liquidity q.2 ho)
  · intro p hp
    simp only [prepare_model, amm_models, List.mem_map] at hp
    obtain ⟨q, hq, rfl⟩ := hp
    have ha : Liquidity.amm q.2 ∈ liquidity :=
      mem_split_amm liquidity q.2 (mem_map_amms_for_solver _ _ hq)
    refine ⟨q.2, ?_, rfl, ?_, ?_⟩
    · simp only [prepare_model]
      exact lookup_eq_some_of_mem_nodup _ (map_amms_for_solver_keys_nodup _) _ _
        (by rw [Prod.mk.eta]; exact hq)
    · simp only [prepare_model]
      exact htokens _ (amm_tokens_mem_flatMap liquidity q.2 ha).1
    · simp only [prepare_model]
      exact htokens _ (amm_tokens_mem_flatMap liquidity q.2 ha).2

theorem claim_C5_witness :
    (∀ p ∈ (prepare_model 0 exampleLiquidity).1.orders,
      ∃ o : LimitOrder,
        ((prepare_model 0 exampleLiquidity).2.limit_orders.lookup p.1 = some o) ∧
        p.2 = order_model o ∧
        ((prepare_model 0 exampleLiquidity).2.tokens.lookup p.2.sell_token =
          some o.sell_token) ∧
        ((prepare_model 0 exampleLiquidity).2.tokens.lookup p.2.buy_token =
          some o.buy_token)) ∧
    (∀ p ∈ (prepare_model 0 exampleLiquidity).1.uniswaps,
      ∃ a : AmmOrder,
        ((prepare_model 0 exampleLiquidity).2.amm_orders.lookup p.1 = some a) ∧
        p.2 = uniswap_model a ∧
        ((prepare_model 0 exampleLiquidity).2.tokens.lookup p.2.token1 =
          some a.tokens.fst) ∧
        ((prepare_model 0 exampleLiquidity).2.tokens.lookup p.2.token2 =
          some a.tokens.snd)) :=
  claim_C5_model_context_roundtrip 0 exampleLiquidity (by decide)

/-! ### Claim C10: token infos from the unpruned liquidity -/

/-- C10: `prepare_model` builds the token-info mapping from the full,
unpruned liquidity — a token has an entry iff it appears in *any* input order
or pool (including orders later removed by connectivity pruning), there is
exactly one entry per distinct token, and every entry carries decimals 18. -/
theorem claim_C10_token_infos_unpruned (native_token : H160)
    (liquidity : List Liquidity)
    (hb : ∀ t ∈ liquidity.flatMap liquidityTokens, t < 16 ^ 40) :
    (∀ t : H160, t < 16 ^ 40 →
      ((∃ l ∈ liquidity, t ∈ liquidityTokens l) ↔
        ∃ info, (token_to_string t, info) ∈
          (prepare_model native_token liquidity).1.tokens)) ∧
    (∀ p ∈ (prepare_model native_token liquidity).1.tokens, p.2.decimals = 18) ∧
    ((prepare_model native_token liquidity).1.tokens.map Prod.fst).Nodup ∧
    (prepare_model native_token liquidity).1.tokens.length =
      ((liquidity.flatMap liquidityTokens).dedup).length := by
  refine ⟨?_, ?_, ?_, ?_⟩
  · intro t htb
    constructor
    · rintro ⟨l, hl, htl⟩
      have ht : t ∈ liquidity.flatMap liquidityTokens := List.mem_flatMap.mpr ⟨l, hl, htl⟩
      exact ⟨{ decimals := 18 },
        List.mem_map.mpr ⟨(token_to_string t, t),
          mem_map_tokens_for_solver liquidity t ht, rfl⟩⟩
    · rintro ⟨info, hinfo⟩
      simp only [prepare_model, token_models, map_tokens_for_solver, List.map_map,
        List.mem_map] at hinfo
      obtain ⟨a, ha, heq⟩ := hinfo
      have hkey : token_to_string a = token_to_string t := congrArg Prod.fst heq
      have hab : a < 16 ^ 40 := hb a (List.mem_dedup.mp ha)
      have : a = t := token_to_string_inj a t hab htb hkey
      rw [← this]
      exact List.mem_flatMap.mp (List.mem_dedup.mp ha) |>.elim
        (fun l hl => ⟨l, hl.1, hl.2⟩)
  · intro p hp
    simp only [prepare_model, token_models, List.mem_map] at hp
    obtain ⟨q, _, rfl⟩ := hp
    rfl
  · have : (prepare_model native_token liquidity).1.tokens.map Prod.fst =
        (map_tokens_for_solver liquidity).map Prod.fst := by
      simp [prepare_model, token_models, List.map_map, Function.comp]
    rw [this]
    exact map_tokens_for_solver_keys_nodup liquidity hb
  · simp [prepare_model, token_models, map_tokens_for_solver]

theorem claim_C10_witness :
    (∀ t : H160, t < 16 ^ 40 →
      ((∃ l ∈ exampleLiquidity, t ∈ liquidityTokens l) ↔
        ∃ info, (token_to_string t, info) ∈
          (prepare_model 0 exampleLiquidity).1.tokens)) ∧
    (∀ p ∈ (prepare_model 0 exampleLiquidity).1.tokens, p.2.decimals = 18) ∧
    ((prepare_model 0 exampleLiquidity).1.tokens.map Prod.fst).Nodup ∧
    (prepare_model 0 exampleLiquidity).1.tokens.length =
      ((exampleLiquidity.flatMap liquidityTokens).dedup).length :=
  claim_C10_token_infos_unpruned 0 exampleLiquidity (by decide)

/-! ### Claim C2: `HttpSolver::solve` result assembly -/

/-- Modelled from the spec: one trade of a `Settlement` references an
original order and an executed amount (§3).  The converter producing it
(`http_solver/settlement.rs`) is not under `src/`; only the result shape
matters for the claims settled here. -/
structure SettlementTrade where
  order : LimitOrder
  executed_amount : Nat
deriving DecidableEq, Repr

/-- Modelled from the spec: an interaction — an external call required to
realize AMM trades (§3). -/
structure Interaction where
  target : H160
  call_data : List Nat
deriving DecidableEq, Repr

/-- Modelled from the spec: `Settlement` — clearing prices per token, a set
of trades and an ordered sequence of interactions (§3). -/
structure Settlement where
  clearing_prices : List (H160 × Nat)
  trades : List SettlementTrade
  interactions : List Interaction
deriving DecidableEq, Repr

/-- The result assembly at the end of `HttpSolver::solve` (line 263 of
`http_solver.rs`): `settlement::convert_settlement(settled, context).map(Some)` —
whatever the conversion returns is mapped through `Some`; an `Err`
propagates unchanged. -/
def solve_outcome (conversion : Except String Settlement) :
    Except String (Option Settlement) :=
  conversion.map some

/-- A conversion result carrying no trades at all. -/
def emptyTradesSettlement : Settlement :=
  { clearing_prices := [], trades := [], interactions := [] }

/-- C2 counterexample: for a conversion that succeeds with no trades,
`solve` does *not* return `Ok(None)` — the settlement is wrapped in `Some`. -/
theorem claim_C2_counterexample :
    emptyTradesSettlement.trades = [] ∧
    solve_outcome (Except.ok emptyTradesSettlement) ≠ Except.ok none := by
  refine ⟨rfl, ?_⟩
  simp [solve_outcome, Except.map]

/-- C2 (amended): for every conversion that succeeds with a settlement
carrying no trades, `solve` returns the *successful* outcome
`Ok(Some settlement))` — not an error, but also not `None`. -/
theorem claim_C2_no_trades_success (conversion : Except String Settlement)
    (s : Settlement) (hok : conversion = Except.ok s) (hnt : s.trades = []) :
    solve_outcome conversion = Except.ok (some s) ∧
    (∀ e : String, solve_outcome conversion ≠ Except.error e) ∧
    ∃ s' : Settlement, solve_outcome conversion = Except.ok (some s') ∧
      s'.trades = [] := by
  subst hok
  exact ⟨rfl, fun e h => by simp [solve_outcome, Except.map] at h, s, rfl, hnt⟩

theorem claim_C2_witness :
    solve_outcome (Except.ok emptyTradesSettlement) =
      Except.ok (some emptyTradesSettlement) ∧
    (∀ e : String, solve_outcome (Except.ok emptyTradesSettlement) ≠
      Except.error e) ∧
    ∃ s' : Settlement,
      solve_outcome (Except.ok emptyTradesSettlement) = Except.ok (some s') ∧
        s'.trades = [] :=
  claim_C2_no_trades_success (Except.ok emptyTradesSettlement)
    emptyTradesSettlement rfl rfl

/-! ### Claim C7: `HttpSolver::send` diagnostics and API-key placement -/

/-- `SolverConfig` (both fields `u32`). -/
structure SolverConfig where
  max_nr_exec_orders : Nat
  time_limit : Nat
deriving DecidableEq, Repr

/-- `SolverConfig::add_to_query`: append the two tuning pairs to the url's
query string (`url.query_pairs_mut().append_pair(..)`). -/
def add_to_query (config : SolverConfig) (base_query : String) : String :=
  let pairs := "max_nr_exec_orders=" ++ natKey config.max_nr_exec_orders ++
    "&time_limit=" ++ natKey config.time_limit
  if base_query = "" then pairs else base_query ++ "&" ++ pairs

/-- The `HttpSolver` state that feeds `send` (the base url is represented by
its query-string part, which is all of it that reaches the diagnostic
context; the reqwest client is environment, not state). -/
structure HttpSolverData where
  base_query : String
  api_key : Option String
  config : SolverConfig
  native_token : H160
deriving DecidableEq, Repr

/-- One HTTP request header; `sensitive` is reqwest's
`HeaderValue::set_sensitive` flag (never logged). -/
structure HeaderModel where
  name : String
  value : String
  sensitive : Bool
deriving DecidableEq, Repr

/-- The query string of the `send` request (`url.query()` after
`set_path("/solve")` and `config.add_to_query`). -/
def send_query (s : HttpSolverData) : String :=
  add_to_query s.config s.base_query

/-- The headers attached by `send`: exactly the optional `X-API-KEY` header,
marked sensitive. -/
def send_headers (api_key : Option String) : List HeaderModel :=
  match api_key with
  | none => []
  | some k => [{ name := "X-API-KEY", value := k, sensitive := true }]

/-- The outbound request `send` builds (query, serialized body, headers). -/
structure HttpRequestModel where
  query : String
  body : String
  headers : List HeaderModel
deriving DecidableEq, Repr

def send_request (s : HttpSolverData) (body : String) : HttpRequestModel :=
  { query := send_query s, body := body, headers := send_headers s.api_key }

/-- The `context` closure of `send` (lines 202–207). -/
def diagnostic_context (query body text : String) : String :=
  "request query " ++ query ++ ", request body " ++ body ++
    ", response body " ++ text

/-- `StatusCode::is_success`: 2xx. -/
def status_is_success (status : Nat) : Bool :=
  200 ≤ status && status < 300

/-- Modelled from the spec: wire shape of a settled order of the solver
response (§6); `http_solver/model.rs` is not under `src/`. -/
structure ExecutedOrderModel where
  exec_sell_amount : Nat
  exec_buy_amount : Nat
deriving DecidableEq, Repr

/-- Modelled from the spec: wire shape of a settled pool of the solver
response (§6). -/
structure UpdatedUniswapModel where
  balance_update1 : Int
  balance_update2 : Int
deriving DecidableEq, Repr

/-- Modelled from the spec: `SettledBatchAuctionModel`, the solver response
(§6); `http_solver/model.rs` is not under `src/`. -/
structure SettledBatchAuctionModel where
  prices : List (String × Nat)
  orders : List (String × ExecutedOrderModel)
  uniswaps : List (String × UpdatedUniswapModel)
deriving DecidableEq, Repr

/-- The outcome of `send` once the response arrived (lines 195–216), as a
function of the serialized body (`serde_json::to_string(&model)`), the
response status and text, and the response deserializer
(`serde_json::from_str`), both serde functions being external library code
passed as parameters.  (`StatusCode`'s `Display` also appends the canonical
reason phrase after the number; the numeric part is kept, the phrase is
cosmetic and constant per status.) -/
def send_result (s : HttpSolverData) (body : String) (status : Nat)
    (text : String) (parse : String → Option SettledBatchAuctionModel) :
    Except String SettledBatchAuctionModel :=
  if status_is_success status then
    match parse text with
    | some settled => Except.ok settled
    | none => Except.error ("failed to decode response json, " ++
        diagnostic_context (send_query s) body text)
  else
    Except.error ("solver response is not success: status " ++ natKey status ++
      ", " ++ diagnostic_context (send_query s) body text)

theorem string_infix_decomp (pre x suf : String) :
    x.data <:+: (pre ++ x ++ suf).data := by
  rw [String.data_append, String.data_append]
  exact List.infix_append _ _ _

/-- C7: whenever `send` fails because of a non-success status or a
response-deserialization failure, the error embeds the request query string,
the request body and the response body; the API key is never placed in the
query, the body or the error text (the result is invariant under the key) and
is attached only as a single sensitive header. -/
theorem claim_C7_send_error_diagnostics (s : HttpSolverData) (body : String)
    (status : Nat) (text : String)
    (parse : String → Option SettledBatchAuctionModel) :
    (status_is_success status = false →
      ∃ e : String, send_result s body status text parse = Except.error e ∧
        (send_query s).data <:+: e.data ∧ body.data <:+: e.data ∧
        text.data <:+: e.data) ∧
    (status_is_success status = true → parse text = none →
      ∃ e : String, send_result s body status text parse = Except.error e ∧
        (send_query s).data <:+: e.data ∧ body.data <:+: e.data ∧
        text.data <:+: e.data) ∧
    (∀ k : Option String,
      send_result { s with api_key := k } body status text parse =
        send_result s body status text parse ∧
      send_query { s with api_key := k } = send_query s) ∧
    (∀ k : String, send_headers (some k) =
      [{ name := "X-API-KEY", value := k, sensitive := true }]) ∧
    send_headers none = [] ∧
    (∀ k : Option String, send_request { s with api_key := k } body =
      { query := send_query s, body := body, headers := send_headers k }) := by
  refine ⟨?_, ?_, fun k => ⟨rfl, rfl⟩, fun k => rfl, rfl, fun k => rfl⟩
  · intro h
    have hres : send_result s body status text parse =
        Except.error ("solver response is not success: status " ++ natKey status ++
          ", " ++ diagnostic_context (send_query s) body text) := by
      unfold send_result
      simp [h]
    refine ⟨_, hres, ?_, ?_, ?_⟩
    · have he : "solver response is not success: status " ++ natKey status ++
          ", " ++ diagnostic_context (send_query s) body text =
          ("solver response is not success: status " ++ natKey status ++ ", " ++
            "request query ") ++ send_query s ++
          (", request body " ++ body ++ ", response body " ++ text) := by
        simp only [diagnostic_context, String.append_assoc]
      rw [he]
      exact string_infix_decomp _ _ _
    · have he : "solver response is not success: status " ++ natKey status ++
          ", " ++ diagnostic_context (send_query s) body text =
          ("solver response is not success: status " ++ natKey status ++ ", " ++
            "request query " ++ send_query s ++ ", request body ") ++ body ++
          (", response body " ++ text) := by
        simp only [diagnostic_context, String.append_assoc]
      rw [he]
      exact string_infix_decomp _ _ _
    · have he : "solver response is not success: status " ++ natKey status ++
          ", " ++ diagnostic_context (send_query s) body text =
          ("solver response is not success: status " ++ natKey status ++ ", " ++
            "request query " ++ send_query s ++ ", request body " ++ body ++
            ", response body ") ++ text ++ "" := by
        simp only [diagnostic_context, String.append_assoc, String.append_empty]
      rw [he]
      exact string_infix_decomp _ _ _
  · intro h hp
    have hres : send_result s body status text parse =
        Except.error ("failed to decode response json, " ++
          diagnostic_context (send_query s) body text) := by
      unfold send_result
      simp [h, hp]
    refine ⟨_, hres, ?_, ?_, ?_⟩
    · have he : "failed to decode response json, " ++
          diagnostic_context (send_query s) body text =
          ("failed to decode response json, " ++ "request query ") ++
            send_query s ++
          (", request body " ++ body ++ ", response body " ++ text) := by
        simp only [diagnostic_context, String.append_assoc]
      rw [he]
      exact string_infix_decomp _ _ _
    · have he : "failed to decode response json, " ++
          diagnostic_context (send_query s) body text =
          ("failed to decode response json, " ++ "request query " ++
            send_query s ++ ", request body ") ++ body ++
          (", response body " ++ text) := by
        simp only [diagnostic_context, String.append_assoc]
      rw [he]
      exact string_infix_decomp _ _ _
    · have he : "failed to decode response json, " ++
          diagnostic_context (send_query s) body text =
          ("failed to decode response json, " ++ "request query " ++
            send_query s ++ ", request body " ++ body ++
            ", response body ") ++ text ++ "" := by
        simp only [diagnostic_context, String.append_assoc, String.append_empty]
      rw [he]
      exact string_infix_decomp _ _ _

/-- A concrete solver state for instantiating the `send` diagnostics
theorem. -/
def exampleSolverData : HttpSolverData :=
  { base_query := "", api_key := some "secret-key",
    config := { max_nr_exec_orders := 100, time_limit := 30 },
    native_token := 0 }

theorem claim_C7_witness :
    (status_is_success 500 = false →
      ∃ e : String,
        send_result exampleSolverData "{}" 500 "oops" (fun _ => none) =
          Except.error e ∧
        (send_query exampleSolverData).data <:+: e.data ∧
        ("{}" : String).data <:+: e.data ∧ ("oops" : String).data <:+: e.data) ∧
    (status_is_success 500 = true → (fun _ => none : String →
        Option SettledBatchAuctionModel) "oops" = none →
      ∃ e : String,
        send_result exampleSolverData "{}" 500 "oops" (fun _ => none) =
          Except.error e ∧
        (send_query exampleSolverData).data <:+: e.data ∧
        ("{}" : String).data <:+: e.data ∧ ("oops" : String).data <:+: e.data) ∧
    (∀ k : Option String,
      send_result { exampleSolverData with api_key := k } "{}" 500 "oops"
          (fun _ => none) =
        send_result exampleSolverData "{}" 500 "oops" (fun _ => none) ∧
      send_query { exampleSolverData with api_key := k } =
        send_query exampleSolverData) ∧
    (∀ k : String, send_headers (some k) =
      [{ name := "X-API-KEY", value := k, sensitive := true }]) ∧
    send_headers none = [] ∧
    (∀ k : Option String, send_request { exampleSolverData with api_key := k } "{}" =
      { query := send_query exampleSolverData, body := "{}",
        headers := send_headers k }) :=
  claim_C7_send_error_diagnostics exampleSolverData "{}" 500 "oops" (fun _ => none)

/-! ### Access list estimation (`settlement_access_list.rs`) -/

/-- An address (`ethcontract::Address = H160`). -/
abbrev Address := Nat

/-- A 256-bit hash (`H256`), as a natural number. -/
abbrev H256 := Nat

/-- Call data bytes (`web3::types::Bytes`). -/
abbrev Bytes := List Nat

/-- `ethcontract::Account`; the code only uses `.address()`. -/
structure Account where
  address : Address
deriving DecidableEq, Repr

/-- The fields of `TransactionBuilder` read by `estimate_access_lists`:
optional call data, sender account and recipient. -/
structure TransactionBuilder where
  data : Option Bytes
  sender : Option Account
  to_addr : Option Address
deriving DecidableEq, Repr

/-- Tenderly's wire shape of one access-list entry (`storage_keys` defaults
to the empty list when the field is absent). -/
structure TenderlyAccessListItem where
  address : Address
  storage_keys : List H256
deriving DecidableEq, Repr

/-- `web3::types::AccessListItem`. -/
structure AccessListItem where
  address : Address
  storage_keys : List H256
deriving DecidableEq, Repr

/-- `impl From<AccessListItem> for web3::types::AccessListItem`. -/
def TenderlyAccessListItem.toWeb3 (item : TenderlyAccessListItem) : AccessListItem :=
  { address := item.address, storage_keys := item.storage_keys }

/-- `web3::types::AccessList`. -/
abbrev AccessList := List AccessListItem

/-- `TenderlyRequest`. -/
structure TenderlyRequest where
  network_id : String
  block_number : Nat
  sender : Address
  input : Bytes
  to_addr : Address
  generate_access_list : Bool
deriving DecidableEq, Repr

/-- `TenderlyResponse`. -/
structure TenderlyResponse where
  generated_access_list : List TenderlyAccessListItem
deriving DecidableEq, Repr

/-- `BlockNumber` response of the block-number endpoint. -/
structure BlockNumber where
  block_number : Nat
deriving DecidableEq, Repr

/-- The `TenderlyApi` state read by `estimate_access_lists` (url, client and
the sensitive `x-access-key` header only address the transport). -/
structure TenderlyApi where
  network_id : String
deriving DecidableEq, Repr

/-- The remote simulator, as the results its two endpoints would return:
`block_number` for `GET .../network/{id}/block-number` and `access_list` for
the simulation `POST` (a `reqwest::Result`, so an `Except`). -/
structure TenderlyEnv where
  block_number : String → Except String BlockNumber
  access_list : TenderlyRequest → Except String TenderlyResponse

/-- The `TenderlyRequest` built for one transaction (lines 134–141). -/
def tenderly_request (api : TenderlyApi) (bn : BlockNumber) (acc : Account)
    (input : Bytes) (recipient : Address) : TenderlyRequest :=
  { network_id := api.network_id, block_number := bn.block_number,
    sender := acc.address, input := input, to_addr := recipient,
    generate_access_list := true }

/-- The per-transaction body of `TenderlyApi::estimate_access_lists`
(lines 124–153): check `data`, `from`, `to` (each `?` propagating its
`context` message), fetch the block number, run the simulation, fail on an
empty generated access list, otherwise convert each entry. -/
def estimate_access_list_one (api : TenderlyApi) (env : TenderlyEnv)
    (tx : TransactionBuilder) : Except String AccessList :=
  match tx.data with
  | none => Except.error "transaction data does not exist"
  | some input =>
    match tx.sender with
    | none => Except.error "transaction from does not exist"
    | some acc =>
      match tx.to_addr with
      | none => Except.error "transaction to does not exist"
      | some recipient =>
        match env.block_number api.network_id with
        | Except.error e => Except.error e
        | Except.ok bn =>
          match env.access_list (tenderly_request api bn acc input recipient) with
          | Except.error e => Except.error e
          | Except.ok response =>
            if response.generated_access_list.isEmpty then
              Except.error "empty access list"
            else
              Except.ok (response.generated_access_list.map
                TenderlyAccessListItem.toWeb3)

/-- `TenderlyApi::estimate_access_lists`: all transactions estimated
independently (`futures::future::join_all` collects the independent futures
in input order). -/
def estimate_access_lists (api : TenderlyApi) (env : TenderlyEnv)
    (txs : List TransactionBuilder) : List (Except String AccessList) :=
  txs.map (estimate_access_list_one api env)

theorem estimate_one_ok_ne_nil (api : TenderlyApi) (env : TenderlyEnv)
    (tx : TransactionBuilder) (l : AccessList)
    (h : estimate_access_list_one api env tx = Except.ok l) : l ≠ [] := by
  unfold estimate_access_list_one at h
  cases hd : tx.data with
  | none => simp [hd] at h
  | some input =>
  cases hs : tx.sender with
  | none => simp [hd, hs] at h
  | some acc =>
  cases ht : tx.to_addr with
  | none => simp [hd, hs, ht] at h
  | some recipient =>
  cases hb : env.block_number api.network_id with
  | error e => simp [hd, hs, ht, hb] at h
  | ok bn =>
  cases ha : env.access_list (tenderly_request api bn acc input recipient) with
  | error e => simp [hd, hs, ht, hb, ha] at h
  | ok resp =>
  simp only [hd, hs, ht, hb, ha] at h
  by_cases hemp : resp.generated_access_list.isEmpty
  · simp [hemp] at h
  · simp only [Bool.not_eq_true] at hemp
    simp only [hemp, Bool.false_eq_true, if_false, Except.ok.injEq] at h
    rw [← h]
    intro hcontra
    rw [List.map_eq_nil_iff] at hcontra
    rw [hcontra] at hemp
    simp at hemp

theorem estimate_one_empty_response_error (api : TenderlyApi) (env : TenderlyEnv)
    (tx : TransactionBuilder) (input : Bytes) (acc : Account)
    (recipient : Address) (bn : BlockNumber)
    (hd : tx.data = some input) (hs : tx.sender = some acc)
    (ht : tx.to_addr = some recipient)
    (hb : env.block_number api.network_id = Except.ok bn)
    (ha : env.access_list (tenderly_request api bn acc input recipient) =
      Except.ok { generated_access_list := [] }) :
    estimate_access_list_one api env tx = Except.error "empty access list" := by
  unfold estimate_access_list_one
  simp [hd, hs, ht, hb, ha]

/-! ### Claim C3: empty access list is a failure -/

/-- C3: no result slot of `estimate_access_lists` is ever `Ok` with an empty
access list, and a transaction whose simulation response carries zero
entries gets the `empty access list` error. -/
theorem claim_C3_empty_simulation_is_error (api : TenderlyApi)
    (env : TenderlyEnv) (txs : List TransactionBuilder) :
    (∀ (i : Nat) (hi : i < (estimate_access_lists api env txs).length)
        (l : AccessList),
      (estimate_access_lists api env txs).get ⟨i, hi⟩ = Except.ok l → l ≠ []) ∧
    (∀ tx ∈ txs, ∀ (input : Bytes) (acc : Account) (recipient : Address)
        (bn : BlockNumber),
      tx.data = some input → tx.sender = some acc →
      tx.to_addr = some recipient →
      env.block_number api.network_id = Except.ok bn →
      env.access_list (tenderly_request api bn acc input recipient) =
        Except.ok { generated_access_list := [] } →
      estimate_access_list_one api env tx = Except.error "empty access list") := by
  constructor
  · intro i hi l h
    have hlen : i < txs.length := by
      simpa [estimate_access_lists] using hi
    have hval : estimate_access_list_one api env (txs.get ⟨i, hlen⟩) =
        Except.ok l := by
      rw [← h]
      simp [estimate_access_lists, List.get_eq_getElem, List.getElem_map]
    exact estimate_one_ok_ne_nil _ _ _ _ hval
  · intro tx _ input acc recipient bn hd hs ht hb ha
    exact estimate_one_empty_response_error api env tx input acc recipient bn
      hd hs ht hb ha

/-- Concrete values instantiating the access-list claims. -/
def exampleApi : TenderlyApi := { network_id := "1" }

def exampleTxOk : TransactionBuilder :=
  { data := some [19, 215], sender := some { address := 5 }, to_addr := some 9 }

def exampleTxNoTo : TransactionBuilder :=
  { data := some [1], sender := some { address := 5 }, to_addr := none }

/-- A simulator whose simulation endpoint reports zero access-list
entries. -/
def emptyRespEnv : TenderlyEnv :=
  { block_number := fun _ => Except.ok { block_number := 14 },
    access_list := fun _ => Except.ok { generated_access_list := [] } }

/-- A simulator that reports one access-list entry. -/
def okRespEnv : TenderlyEnv :=
  { block_number := fun _ => Except.ok { block_number := 14 },
    access_list := fun _ =>
      Except.ok { generated_access_list := [{ address := 7, storage_keys := [3] }] } }

theorem claim_C3_witness :
    (∀ (i : Nat) (hi : i < (estimate_access_lists exampleApi emptyRespEnv
        [exampleTxOk]).length) (l : AccessList),
      (estimate_access_lists exampleApi emptyRespEnv [exampleTxOk]).get ⟨i, hi⟩ =
        Except.ok l → l ≠ []) ∧
    (∀ tx ∈ [exampleTxOk], ∀ (input : Bytes) (acc : Account)
        (recipient : Address) (bn : BlockNumber),
      tx.data = some input → tx.sender = some acc →
      tx.to_addr = some recipient →
      emptyRespEnv.block_number exampleApi.network_id = Except.ok bn →
      emptyRespEnv.access_list (tenderly_request exampleApi bn acc input recipient) =
        Except.ok { generated_access_list := [] } →
      estimate_access_list_one exampleApi emptyRespEnv tx =
        Except.error "empty access list") :=
  claim_C3_empty_simulation_is_error exampleApi emptyRespEnv [exampleTxOk]

/-! ### Claim C4: batch shape and per-transaction isolation -/

/-- C4: `estimate_access_lists` returns one result per input transaction in
input order, position `i`'s result is exactly the independent estimation of
transaction `i`, and changing the transaction at one position (e.g. to one
with a missing `to` address) leaves every other position's result
unchanged. -/
theorem claim_C4_batch_isolation (api : TenderlyApi) (env : TenderlyEnv)
    (txs : List TransactionBuilder) :
    (estimate_access_lists api env txs).length = txs.length ∧
    (∀ (i : Nat) (hi : i < (estimate_access_lists api env txs).length)
        (hj : i < txs.length),
      (estimate_access_lists api env txs).get ⟨i, hi⟩ =
        estimate_access_list_one api env (txs.get ⟨i, hj⟩)) ∧
    (∀ (txs' : List TransactionBuilder) (j : Nat),
      txs'.length = txs.length →
      (∀ (i : Nat) (hi : i < txs.length) (hi' : i < txs'.length), i ≠ j →
        txs.get ⟨i, hi⟩ = txs'.get ⟨i, hi'⟩) →
      ∀ (i : Nat) (hi : i < (estimate_access_lists api env txs).length)
        (hi' : i < (estimate_access_lists api env txs').length), i ≠ j →
        (estimate_access_lists api env txs).get ⟨i, hi⟩ =
          (estimate_access_lists api env txs').get ⟨i, hi'⟩) := by
  refine ⟨by simp [estimate_access_lists], ?_, ?_⟩
  · intro i hi hj
    simp [estimate_access_lists, List.get_eq_getElem, List.getElem_map]
  · intro txs' j hlen hij i hi hi' hne
    have hti : i < txs.length := by simpa [estimate_access_lists] using hi
    have hti' : i < txs'.length := by simpa [estimate_access_lists] using hi'
    have : txs.get ⟨i, hti⟩ = txs'.get ⟨i, hti'⟩ := hij i hti hti' hne
    simp only [estimate_access_lists, List.get_eq_getElem, List.getElem_map]
    rw [show txs[i] = txs.get ⟨i, hti⟩ from rfl,
      show txs'[i] = txs'.get ⟨i, hti'⟩ from rfl, this]

theorem claim_C4_witness :
    (estimate_access_lists exampleApi okRespEnv [exampleTxNoTo, exampleTxOk]).length =
      ([exampleTxNoTo, exampleTxOk] : List TransactionBuilder).length ∧
    (∀ (i : Nat) (hi : i < (estimate_access_lists exampleApi okRespEnv
        [exampleTxNoTo, exampleTxOk]).length)
        (hj : i < ([exampleTxNoTo, exampleTxOk] : List TransactionBuilder).length),
      (estimate_access_lists exampleApi okRespEnv [exampleTxNoTo, exampleTxOk]).get
          ⟨i, hi⟩ =
        estimate_access_list_one exampleApi okRespEnv
          (([exampleTxNoTo, exampleTxOk] : List TransactionBuilder).get ⟨i, hj⟩)) ∧
    (∀ (txs' : List TransactionBuilder) (j : Nat),
      txs'.length = ([exampleTxNoTo, exampleTxOk] : List TransactionBuilder).length →
      (∀ (i : Nat)
          (hi : i < ([exampleTxNoTo, exampleTxOk] : List TransactionBuilder).length)
          (hi' : i < txs'.length), i ≠ j →
        ([exampleTxNoTo, exampleTxOk] : List TransactionBuilder).get ⟨i, hi⟩ =
          txs'.get ⟨i, hi'⟩) →
      ∀ (i : Nat) (hi : i < (estimate_access_lists exampleApi okRespEnv
          [exampleTxNoTo, exampleTxOk]).length)
        (hi' : i < (estimate_access_lists exampleApi okRespEnv txs').length),
        i ≠ j →
        (estimate_access_lists exampleApi okRespEnv
            [exampleTxNoTo, exampleTxOk]).get ⟨i, hi⟩ =
          (estimate_access_lists exampleApi okRespEnv txs').get ⟨i, hi'⟩) :=
  claim_C4_batch_isolation exampleApi okRespEnv [exampleTxNoTo, exampleTxOk]

/-! ### Claim C8: missing fields fail before any network call -/

/-- C8: a transaction lacking `data`, `from` or `to` yields a precondition
error whose value is independent of the simulator environment — no network
response can influence it, i.e. it is produced before any network call. -/
theorem claim_C8_missing_fields_fail_fast (api : TenderlyApi)
    (tx : TransactionBuilder)
    (h : tx.data = none ∨ tx.sender = none ∨ tx.to_addr = none) :
    ∃ msg : String,
      msg ∈ ["transaction data does not exist",
             "transaction from does not exist",
             "transaction to does not exist"] ∧
      ∀ env : TenderlyEnv,
        estimate_access_list_one api env tx = Except.error msg := by
  cases hd : tx.data with
  | none =>
    refine ⟨"transaction data does not exist", by simp, fun env => ?_⟩
    unfold estimate_access_list_one
    rw [hd]
  | some input =>
    cases hs : tx.sender with
    | none =>
      refine ⟨"transaction from does not exist", by simp, fun env => ?_⟩
      unfold estimate_access_list_one
      simp [hd, hs]
    | some acc =>
      have hto : tx.to_addr = none := by
        rcases h with h | h | h
        · rw [hd] at h
          cases h
        · rw [hs] at h
          cases h
        · exact h
      refine ⟨"transaction to does not exist", by simp, fun env => ?_⟩
      unfold estimate_access_list_one
      simp [hd, hs, hto]

theorem claim_C8_witness :
    ∃ msg : String,
      msg ∈ ["transaction data does not exist",
             "transaction from does not exist",
             "transaction to does not exist"] ∧
      ∀ env : TenderlyEnv,
        estimate_access_list_one exampleApi env exampleTxNoTo =
          Except.error msg :=
  claim_C8_missing_fields_fail_fast exampleApi exampleTxNoTo
    (Or.inr (Or.inr rfl))

/-! ### Claim C9: effects of `settle(solution_id)` -/

/-- Modelled from the spec: the on-chain state observed by the driver test —
per-account transaction counts and native-currency balances, and per-token
per-account balances (§4.7; the `/settle` endpoint's implementation is not
under `src/`, only `tests/cases/settle.rs` is). -/
structure ChainState where
  tx_count : Address → Nat
  native_balance : Address → Nat
  token_balance : H160 → Address → Nat

/-- Modelled from the spec: one executed trade of a settlement — the trader
sells `sell_amount` of `sell_token` (plus `user_fee`) and receives
`buy_amount` of `buy_token` (§4.7, §8 end-to-end scenario). -/
structure TradeExec where
  trader : Address
  sell_token : H160
  buy_token : H160
  sell_amount : Nat
  buy_amount : Nat
  user_fee : Nat
deriving DecidableEq, Repr

def ChainState.incTxCount (st : ChainState) (a : Address) : ChainState :=
  { st with tx_count := fun x => if x = a then st.tx_count x + 1 else st.tx_count x }

def ChainState.debitNative (st : ChainState) (a : Address) (amount : Nat) : ChainState :=
  { st with native_balance := fun x =>
      if x = a then st.native_balance x - amount else st.native_balance x }

def ChainState.debitToken (st : ChainState) (tok : H160) (a : Address)
    (amount : Nat) : ChainState :=
  { st with token_balance := fun t x =>
      if t = tok ∧ x = a then st.token_balance t x - amount
      else st.token_balance t x }

def ChainState.creditToken (st : ChainState) (tok : H160) (a : Address)
    (amount : Nat) : ChainState :=
  { st with token_balance := fun t x =>
      if t = tok ∧ x = a then st.token_balance t x + amount
      else st.token_balance t x }

/-- Modelled from the spec: executing `settle(solution_id)` submits exactly
one transaction from the submitting account (incrementing its transaction
count and debiting the gas fee from its native balance) and moves the
counterparties' token balances exactly per the settlement's trade (§4.7). -/
def settle_exec (st : ChainState) (submitter : Address) (gas_fee : Nat)
    (trade : TradeExec) : ChainState :=
  ((((st.incTxCount submitter).debitNative submitter gas_fee).debitToken
      trade.sell_token trade.trader (trade.sell_amount + trade.user_fee)).creditToken
    trade.buy_token trade.trader trade.buy_amount)

/-- C9: after `settle`, the submitter's transaction count increases by
exactly one and its native balance strictly decreases, while the trader's
sell-token balance decreases by exactly the executed sell amount plus the
user fee and the trader's buy-token balance increases by exactly the bought
amount — the four assertions of the driver's `/settle` test. -/
theorem claim_C9_settle_effects (st : ChainState) (submitter : Address)
    (gas_fee : Nat) (trade : TradeExec)
    (hfee : 0 < gas_fee)
    (hnative : gas_fee ≤ st.native_balance submitter)
    (hsell : trade.sell_amount + trade.user_fee ≤
      st.token_balance trade.sell_token trade.trader)
    (htok : trade.sell_token ≠ trade.buy_token) :
    (settle_exec st submitter gas_fee trade).tx_count submitter =
      st.tx_count submitter + 1 ∧
    (settle_exec st submitter gas_fee trade).native_balance submitter <
      st.native_balance submitter ∧
    (settle_exec st submitter gas_fee trade).token_balance trade.sell_token
        trade.trader =
      st.token_balance trade.sell_token trade.trader -
        trade.sell_amount - trade.user_fee ∧
    (settle_exec st submitter gas_fee trade).token_balance trade.sell_token
        trade.trader + (trade.sell_amount + trade.user_fee) =
      st.token_balance trade.sell_token trade.trader ∧
    (settle_exec st submitter gas_fee trade).token_balance trade.buy_token
        trade.trader =
      st.token_balance trade.buy_token trade.trader + trade.buy_amount := by
  refine ⟨?_, ?_, ?_, ?_, ?_⟩
  · simp [settle_exec, ChainState.incTxCount, ChainState.debitNative,
      ChainState.debitToken, ChainState.creditToken]
  · simp [settle_exec, ChainState.incTxCount, ChainState.debitNative,
      ChainState.debitToken, ChainState.creditToken]
    omega
  · simp only [settle_exec, ChainState.incTxCount, ChainState.debitNative,
      ChainState.debitToken, ChainState.creditToken]
    simp [htok]
    omega
  · simp only [settle_exec, ChainState.incTxCount, ChainState.debitNative,
      ChainState.debitToken, ChainState.creditToken]
    simp [htok]
    omega
  · simp only [settle_exec, ChainState.incTxCount, ChainState.debitNative,
      ChainState.debitToken, ChainState.creditToken]
    simp [Ne.symm htok]

/-- A concrete chain state for instantiating the settle theorem. -/
def exampleChainState : ChainState :=
  { tx_count := fun _ => 3,
    native_balance := fun _ => 1000000,
    token_balance := fun _ _ => 500000 }

def exampleTrade : TradeExec :=
  { trader := 11, sell_token := 1, buy_token := 2,
    sell_amount := 2000, buy_amount := 1000, user_fee := 5 }

theorem claim_C9_witness :
    (settle_exec exampleChainState 42 21000 exampleTrade).tx_count 42 =
      exampleChainState.tx_count 42 + 1 ∧
    (settle_exec exampleChainState 42 21000 exampleTrade).native_balance 42 <
      exampleChainState.native_balance 42 ∧
    (settle_exec exampleChainState 42 21000 exampleTrade).token_balance
        exampleTrade.sell_token exampleTrade.trader =
      exampleChainState.token_balance exampleTrade.sell_token
          exampleTrade.trader - exampleTrade.sell_amount - exampleTrade.user_fee ∧
    (settle_exec exampleChainState 42 21000 exampleTrade).token_balance
        exampleTrade.sell_token exampleTrade.trader +
        (exampleTrade.sell_amount + exampleTrade.user_fee) =
      exampleChainState.token_balance exampleTrade.sell_token
          exampleTrade.trader ∧
    (settle_exec exampleChainState 42 21000 exampleTrade).token_balance
        exampleTrade.buy_token exampleTrade.trader =
      exampleChainState.token_balance exampleTrade.buy_token
          exampleTrade.trader + exampleTrade.buy_amount :=
  claim_C9_settle_effects exampleChainState 42 21000 exampleTrade
    (by decide) (by decide) (by decide) (by decide)
